import Mathlib

/-!
Verification of the StudyPro client-side media capture pipeline
(`src/components/MediaCapture.tsx`).

Numeric values that the browser represents as JS numbers are modelled as
exact rationals (`ℚ`); string data as Lean `String`.  Asynchronous
browser effects (auth lookup, storage write, metadata insert, stream
acquisition) are modelled by passing their outcomes in explicitly and
recording the externally visible calls in the result, so that the
control flow of the source is captured exactly.
-/

namespace StudyPro

/-- `clamp` from MediaCapture.tsx line 9:
`(val, min, max) => Math.min(Math.max(val, min), max)`.
Stated over any linear order; it is used at `ℚ` by the crop editor and
at `ℝ` to settle the spec's claim about all reals. -/
def clamp {α : Type} [LinearOrder α] (val lo hi : α) : α :=
  min (max val lo) hi

/-- The crop rectangle `{x, y, width, height}` of the crop editor,
each field a percentage of the displayed image. -/
structure Crop where
  x : ℚ
  y : ℚ
  width : ℚ
  height : ℚ
deriving Repr, DecidableEq

/-- The interaction mode recorded on pointer-down:
`'move' | 'nw' | 'ne' | 'sw' | 'se'`. -/
inductive Mode where
  | move
  | nw
  | ne
  | sw
  | se
deriving Repr, DecidableEq

/-- `mode.includes('n')` for the non-move modes. -/
def hasN : Mode → Bool
  | .nw => true
  | .ne => true
  | _ => false

/-- `mode.includes('s')` for the non-move modes. -/
def hasS : Mode → Bool
  | .sw => true
  | .se => true
  | _ => false

/-- `mode.includes('w')` for the non-move modes. -/
def hasW : Mode → Bool
  | .nw => true
  | .sw => true
  | _ => false

/-- `mode.includes('e')` for the non-move modes. -/
def hasE : Mode → Bool
  | .ne => true
  | .se => true
  | _ => false

/-- `minSize = 10`, the minimum crop size in percent (line 43). -/
def minSize : ℚ := 10

/-- The `mode.includes('n')` branch (lines 45-49): move the top edge,
keeping the bottom edge fixed. -/
def applyN (startCrop c : Crop) (deltaY : ℚ) : Crop :=
  let maxY := startCrop.y + startCrop.height - minSize
  let newY := clamp (startCrop.y + deltaY) 0 maxY
  { c with y := newY, height := startCrop.height + (startCrop.y - newY) }

/-- The `mode.includes('s')` branch (lines 50-53): resize the bottom edge. -/
def applyS (startCrop c : Crop) (deltaY : ℚ) : Crop :=
  let maxHeight := 100 - startCrop.y
  { c with height := clamp (startCrop.height + deltaY) minSize maxHeight }

/-- The `mode.includes('w')` branch (lines 54-58): move the left edge,
keeping the right edge fixed. -/
def applyW (startCrop c : Crop) (deltaX : ℚ) : Crop :=
  let maxX := startCrop.x + startCrop.width - minSize
  let newX := clamp (startCrop.x + deltaX) 0 maxX
  { c with x := newX, width := startCrop.width + (startCrop.x - newX) }

/-- The `mode.includes('e')` branch (lines 59-62): resize the right edge. -/
def applyE (startCrop c : Crop) (deltaX : ℚ) : Crop :=
  let maxWidth := 100 - startCrop.x
  { c with width := clamp (startCrop.width + deltaX) minSize maxWidth }

/-- `handlePointerMove` (lines 23-66), as a function of the interaction
snapshot: the crop at gesture start, the active mode, and the pointer
deltas already converted to percentages of the image box
(`deltaX = (clientX - startX)/rect.width * 100`, likewise `deltaY`).
The four resize rules are applied sequentially, exactly as the source's
`includes` tests do. -/
def handlePointerMove (startCrop : Crop) (mode : Mode) (deltaX deltaY : ℚ) : Crop :=
  if mode = Mode.move then
    { startCrop with
      x := clamp (startCrop.x + deltaX) 0 (100 - startCrop.width),
      y := clamp (startCrop.y + deltaY) 0 (100 - startCrop.height) }
  else
    let c := startCrop
    let c := if hasN mode then applyN startCrop c deltaY else c
    let c := if hasS mode then applyS startCrop c deltaY else c
    let c := if hasW mode then applyW startCrop c deltaX else c
    let c := if hasE mode then applyE startCrop c deltaX else c
    c

/-- The bound conditions on a crop rectangle:
`0 ≤ x`, `0 ≤ y`, `x + width ≤ 100`, `y + height ≤ 100`. -/
def ValidBounds (c : Crop) : Prop :=
  0 ≤ c.x ∧ 0 ≤ c.y ∧ c.x + c.width ≤ 100 ∧ c.y + c.height ≤ 100

instance (c : Crop) : Decidable (ValidBounds c) := by
  unfold ValidBounds; infer_instance

/-- The minimum-size conditions: `width ≥ minSize` and `height ≥ minSize`. -/
def MinSized (c : Crop) : Prop :=
  minSize ≤ c.width ∧ minSize ≤ c.height

instance (c : Crop) : Decidable (MinSized c) := by
  unfold MinSized; infer_instance

/-- The coercion the browser applies when `handleSave` assigns
`canvas.width = pixelW` (lines 103-104): the canvas dimension is a WebIDL
`unsigned long`, so the value's integer part is taken modulo `2^32`
(truncation, not rounding).  The pixel sizes assigned here are
nonnegative, for which `Int.toNat ∘ Rat.floor` is exactly that
truncation. -/
def canvasDim (q : ℚ) : ℕ :=
  (Int.toNat ⌊q⌋) % 2 ^ 32

/-- The output raster dimensions of `handleSave` (lines 89-118): the
canvas is sized from `scaleX = naturalWidth / 100`,
`pixelW = crop.width * scaleX` (and likewise for the height), and the
encoded blob has the canvas's dimensions. -/
def handleSaveDims (naturalWidth naturalHeight : ℕ) (crop : Crop) : ℕ × ℕ :=
  let scaleX : ℚ := naturalWidth / 100
  let scaleY : ℚ := naturalHeight / 100
  let pixelW := crop.width * scaleX
  let pixelH := crop.height * scaleY
  (canvasDim pixelW, canvasDim pixelH)

/-! ## Upload pipeline (`uploadMedia`, lines 359-438) -/

/-- The `MediaType` values `uploadMedia` can receive. -/
inductive MediaType where
  | image
  | video
  | audio
  | document
deriving Repr, DecidableEq

/-- `sizeLimit = 50 * 1024 * 1024` bytes (line 361). -/
def sizeLimit : ℕ := 50 * 1024 * 1024

/-- The character class `[a-zA-Z0-9-_]` of the sanitizing regex on
line 397: ASCII letters, digits, hyphen and underscore. -/
def isAllowedChar (ch : Char) : Bool :=
  ch.isAlpha || ch.isDigit || ch == '-' || ch == '_'

/-- `baseName.replace(/[^a-zA-Z0-9-_]/g, '_')` (line 397), on the
character list. -/
def sanitizeChars (l : List Char) : List Char :=
  l.map (fun ch => if isAllowedChar ch then ch else '_')

/-- `baseName.replace(/[^a-zA-Z0-9-_]/g, '_')` (line 397). -/
def sanitize (s : String) : String :=
  String.mk (sanitizeChars s.data)

/-- `file.name.lastIndexOf('.')` followed by the two `substring` calls
(lines 390-396), as a split at the last dot: `some (base, ext)` when a
dot occurs, `none` when `lastIndexOf` returns `-1`. -/
def splitAtLastDot : List Char → Option (List Char × List Char)
  | [] => none
  | ch :: cs =>
    match splitAtLastDot cs with
    | some (b, e) => some (ch :: b, e)
    | none => if ch = '.' then some ([], cs) else none

/-- The names `uploadMedia` derives for a user-picked `File`
(lines 388-399): the stored object name
`{uniqueId}_{sanitizedBaseName}.{ext}` and the display name
`file.name`.  When the name has no dot, `baseName` is the whole name
and `ext` is empty. -/
def storedAndDisplay (uniqueId fileName : String) : String × String :=
  let (baseName, ext) :=
    match splitAtLastDot fileName.data with
    | some (b, e) => (String.mk b, String.mk e)
    | none => (fileName, "")
  (uniqueId ++ "_" ++ sanitize baseName ++ "." ++ ext, fileName)

/-- `type.charAt(0).toUpperCase() + type.slice(1)` etc.: the lowercase
type name used in the stored name of a captured blob (line 402). -/
def mediaTypeName : MediaType → String
  | .image => "image"
  | .video => "video"
  | .audio => "audio"
  | .document => "document"

/-- `const ext = type === 'image' ? 'jpg' : 'webm'` (line 401). -/
def capturedExt (t : MediaType) : String :=
  if t = MediaType.image then "jpg" else "webm"

/-- The stored object name `uploadMedia` derives for a captured blob
(lines 400-402): `{uniqueId}_{type}_{timestamp}.{ext}`. -/
def capturedStoredName (uniqueId : String) (t : MediaType) (timestamp : ℕ) : String :=
  uniqueId ++ "_" ++ mediaTypeName t ++ "_" ++ toString timestamp ++ "." ++ capturedExt t

/-- The network interactions `uploadMedia` can perform, in source
order: the auth lookup (line 375), the storage write (line 411), the
public-URL resolution (line 414) and the metadata insert (line 416). -/
inductive UploadStep where
  | authLookup
  | storageUpload
  | getPublicUrl
  | metadataInsert
deriving Repr, DecidableEq

/-- The user-visible error classes of `uploadMedia`. -/
inductive UploadError where
  | sizeLimitExceeded
  | authRequired
  | storageError
deriving Repr, DecidableEq

/-- The outcomes of the asynchronous collaborators of one `uploadMedia`
run, passed in explicitly: whether the component is still mounted when
the run completes, the auth lookup's user, and whether the storage
write and the metadata insert succeed. -/
structure UploadEnv where
  mounted : Bool
  user : Option String
  storageOk : Bool
  insertOk : Bool
deriving Repr, DecidableEq

/-- The externally visible outcome of one `uploadMedia` run: the
network calls made in order, the surfaced error (if any), how often the
`onUpload` callback was invoked, and whether a metadata record was
created. -/
structure UploadOutcome where
  steps : List UploadStep
  error : Option UploadError
  callbackCount : ℕ
  insertedRecord : Bool
deriving Repr, DecidableEq

/-- `uploadMedia` (lines 359-438) as a function of the blob size and
the collaborator outcomes.  The size check precedes every network call;
`supabase.auth.getUser()` runs next; the storage write, URL resolution
and metadata insert follow in order inside the `try`, each failure
aborting the rest via `throw`; `onUpload(data)` fires only when the
insert succeeded and `isMounted.current` is still true (line 426). -/
def uploadMedia (env : UploadEnv) (size : ℕ) : UploadOutcome :=
  if size > sizeLimit then
    { steps := [], error := some UploadError.sizeLimitExceeded,
      callbackCount := 0, insertedRecord := false }
  else
    match env.user with
    | none =>
      { steps := [UploadStep.authLookup], error := some UploadError.authRequired,
        callbackCount := 0, insertedRecord := false }
    | some _ =>
      if env.storageOk then
        if env.insertOk then
          { steps := [UploadStep.authLookup, UploadStep.storageUpload,
                      UploadStep.getPublicUrl, UploadStep.metadataInsert],
            error := none,
            callbackCount := if env.mounted then 1 else 0,
            insertedRecord := true }
        else
          { steps := [UploadStep.authLookup, UploadStep.storageUpload,
                      UploadStep.getPublicUrl, UploadStep.metadataInsert],
            error := some UploadError.storageError,
            callbackCount := 0, insertedRecord := false }
      else
        { steps := [UploadStep.authLookup, UploadStep.storageUpload],
          error := some UploadError.storageError,
          callbackCount := 0, insertedRecord := false }

/-! ## Media recorder adapter (`getSupportedMimeType`, `setupRecorder`,
lines 218-282) -/

/-- The recording category requested from the adapter. -/
inductive RecCategory where
  | video
  | audio
deriving Repr, DecidableEq

/-- `videoTypes` (line 219). -/
def videoTypes : List String :=
  ["video/webm;codecs=vp8", "video/webm", "video/mp4", "video/quicktime"]

/-- `audioTypes` (line 220). -/
def audioTypes : List String :=
  ["audio/webm", "audio/mp4", "audio/ogg", "audio/aac"]

/-- `getSupportedMimeType` (lines 218-224):
`possibleTypes.find(t => MediaRecorder.isTypeSupported(t)) || ''`, where
the platform's support test is passed in as a predicate. -/
def getSupportedMimeType (isTypeSupported : String → Bool) (t : RecCategory) : String :=
  let possibleTypes := match t with
    | RecCategory.video => videoTypes
    | RecCategory.audio => audioTypes
  (possibleTypes.find? isTypeSupported).getD ""

/-- The outcome of `setupRecorder` (lines 256-282): the recorder's
negotiated encoding when one was created, and whether the
unsupported-encoding error was reported. -/
structure SetupOutcome where
  recorder : Option String
  errorNotified : Bool
deriving Repr, DecidableEq

/-- `setupRecorder` (lines 256-282): when `getSupportedMimeType`
returns the empty string, notify an error and return without creating
a recorder; otherwise create a recorder tagged with the selected
encoding. -/
def setupRecorder (isTypeSupported : String → Bool) (t : RecCategory) : SetupOutcome :=
  let mimeType := getSupportedMimeType isTypeSupported t
  if mimeType = "" then
    { recorder := none, errorNotified := true }
  else
    { recorder := some mimeType, errorNotified := false }

/-! ## Capture session streams (`startStream`, `stopStream`,
lines 226-254 and 440-450)

Streams are identified by numeric ids.  The state records the stream
currently referenced by `streamRef`, every stream id the session ever
acquired from `getUserMedia`, and the ids whose tracks have been
stopped.  A stream is *active* when it was acquired and its tracks have
not been stopped. -/

structure CaptureState where
  held : Option ℕ
  acquired : List ℕ
  stopped : List ℕ
deriving Repr, DecidableEq

/-- The streams whose tracks are still live. -/
def activeStreams (s : CaptureState) : List ℕ :=
  s.acquired.filter (fun i => decide (i ∉ s.stopped))

/-- `stopStream` (lines 440-450): stop every track of the held stream
and clear `streamRef` (the UI-state resets are not modelled; they do
not touch the streams). -/
def stopStream (s : CaptureState) : CaptureState :=
  match s.held with
  | some i => { s with held := none, stopped := i :: s.stopped }
  | none => s

/-- The outcome of the `getUserMedia` call inside `startStream`:
either a fresh stream (with its id) or a rejection (permission denied /
no device). -/
inductive AcquireOutcome where
  | success (id : ℕ)
  | failure
deriving Repr, DecidableEq

/-- `startStream` (lines 226-254): release any previously held stream
first (`if (streamRef.current) stopStream()`), then await
`getUserMedia`.  On rejection the catch branch leaves no stream held;
on success, if the component was unmounted while awaiting, the fresh
stream's tracks are stopped immediately; otherwise it becomes the held
stream. -/
def startStream (s : CaptureState) (outcome : AcquireOutcome) (mountedAfterAcquire : Bool) :
    CaptureState :=
  let s1 := if s.held.isSome then stopStream s else s
  match outcome with
  | AcquireOutcome.failure => s1
  | AcquireOutcome.success i =>
    let s2 := { s1 with acquired := i :: s1.acquired }
    if mountedAfterAcquire then
      { s2 with held := some i }
    else
      { s2 with stopped := i :: s2.stopped }

/-! ## Helper lemmas -/

lemma clamp_le_hi {α : Type} [LinearOrder α] (v lo hi : α) : clamp v lo hi ≤ hi :=
  min_le_right _ _

lemma lo_le_clamp {α : Type} [LinearOrder α] (v lo hi : α) (h : lo ≤ hi) :
    lo ≤ clamp v lo hi :=
  le_min (le_max_right _ _) h

lemma hpm_move (c : Crop) (dx dy : ℚ) :
    handlePointerMove c Mode.move dx dy =
      { c with
        x := clamp (c.x + dx) 0 (100 - c.width),
        y := clamp (c.y + dy) 0 (100 - c.height) } :=
  rfl

lemma hpm_nw (c : Crop) (dx dy : ℚ) :
    handlePointerMove c Mode.nw dx dy =
      { x := clamp (c.x + dx) 0 (c.x + c.width - minSize),
        y := clamp (c.y + dy) 0 (c.y + c.height - minSize),
        width := c.width + (c.x - clamp (c.x + dx) 0 (c.x + c.width - minSize)),
        height := c.height + (c.y - clamp (c.y + dy) 0 (c.y + c.height - minSize)) } :=
  rfl

lemma hpm_ne (c : Crop) (dx dy : ℚ) :
    handlePointerMove c Mode.ne dx dy =
      { x := c.x,
        y := clamp (c.y + dy) 0 (c.y + c.height - minSize),
        width := clamp (c.width + dx) minSize (100 - c.x),
        height := c.height + (c.y - clamp (c.y + dy) 0 (c.y + c.height - minSize)) } :=
  rfl

lemma hpm_sw (c : Crop) (dx dy : ℚ) :
    handlePointerMove c Mode.sw dx dy =
      { x := clamp (c.x + dx) 0 (c.x + c.width - minSize),
        y := c.y,
        width := c.width + (c.x - clamp (c.x + dx) 0 (c.x + c.width - minSize)),
        height := clamp (c.height + dy) minSize (100 - c.y) } :=
  rfl

lemma hpm_se (c : Crop) (dx dy : ℚ) :
    handlePointerMove c Mode.se dx dy =
      { x := c.x,
        y := c.y,
        width := clamp (c.width + dx) minSize (100 - c.x),
        height := clamp (c.height + dy) minSize (100 - c.y) } :=
  rfl

/-! ## Claims -/

/-- C1 (counterexample): the claim's notion of validity — only
`0 ≤ x`, `0 ≤ y`, `x+width ≤ 100`, `y+height ≤ 100` — is not preserved:
the rectangle `{x:0, y:0, width:20, height:5}` satisfies all four
conditions, yet the `nw` handler (even with a zero delta) clamps `y`
into `[0, y+height-minSize] = [0, -5]`, producing `y = -5 < 0`. -/
theorem pointer_bounds_cex :
    ValidBounds ⟨0, 0, 20, 5⟩ ∧
      ¬ ValidBounds (handlePointerMove ⟨0, 0, 20, 5⟩ Mode.nw 0 0) := by
  have h : handlePointerMove ⟨0, 0, 20, 5⟩ Mode.nw 0 0 = ⟨0, -5, 20, 10⟩ := by
    rw [hpm_nw]
    simp only [clamp, minSize]
    norm_num [min_def, max_def]
  rw [h]
  norm_num [ValidBounds]

/-- C1 (amended): for every starting crop rectangle satisfying the full
validity invariant — `0 ≤ x`, `0 ≤ y`, `x+width ≤ 100`,
`y+height ≤ 100` *and* `width ≥ minSize`, `height ≥ minSize` — and
every pointer-move delta in every mode (move, nw, ne, sw, se), the crop
rectangle computed by the pointer-move handler again satisfies `0 ≤ x`,
`0 ≤ y`, `x+width ≤ 100` and `y+height ≤ 100`. -/
theorem pointer_move_preserves_bounds (c : Crop) (m : Mode) (dx dy : ℚ)
    (hv : ValidBounds c) (hm : MinSized c) :
    ValidBounds (handlePointerMove c m dx dy) := by
  obtain ⟨hx, hy, hxw, hyh⟩ := hv
  obtain ⟨hw, hh⟩ := hm
  have hms : (0 : ℚ) < minSize := by norm_num [minSize]
  cases m with
  | move =>
    rw [hpm_move]
    refine ⟨?_, ?_, ?_, ?_⟩
    · exact lo_le_clamp _ _ _ (by linarith)
    · exact lo_le_clamp _ _ _ (by linarith)
    · have := clamp_le_hi (c.x + dx) 0 (100 - c.width); simp only; linarith
    · have := clamp_le_hi (c.y + dy) 0 (100 - c.height); simp only; linarith
  | nw =>
    rw [hpm_nw]
    have h1 := lo_le_clamp (c.x + dx) 0 (c.x + c.width - minSize) (by linarith)
    have h2 := lo_le_clamp (c.y + dy) 0 (c.y + c.height - minSize) (by linarith)
    refine ⟨h1, h2, ?_, ?_⟩ <;> simp only <;> linarith
  | ne =>
    rw [hpm_ne]
    have h2 := lo_le_clamp (c.y + dy) 0 (c.y + c.height - minSize) (by linarith)
    have h3 := clamp_le_hi (c.width + dx) minSize (100 - c.x)
    refine ⟨hx, h2, ?_, ?_⟩ <;> simp only <;> linarith
  | sw =>
    rw [hpm_sw]
    have h1 := lo_le_clamp (c.x + dx) 0 (c.x + c.width - minSize) (by linarith)
    have h4 := clamp_le_hi (c.height + dy) minSize (100 - c.y)
    refine ⟨h1, hy, ?_, ?_⟩ <;> simp only <;> linarith
  | se =>
    rw [hpm_se]
    have h3 := clamp_le_hi (c.width + dx) minSize (100 - c.x)
    have h4 := clamp_le_hi (c.height + dy) minSize (100 - c.y)
    refine ⟨hx, hy, ?_, ?_⟩ <;> simp only <;> linarith

/-- C1 (witness): a concrete instance of the amended invariant. -/
theorem pointer_move_preserves_bounds_witness :
    ValidBounds (handlePointerMove ⟨10, 10, 20, 20⟩ Mode.move 85 (-85)) :=
  pointer_move_preserves_bounds _ _ _ _
    (by norm_num [ValidBounds]) (by norm_num [MinSized, minSize])

/-- C2: starting from a valid, min-sized crop rectangle, every resize
handle (nw, ne, sw, se) and every delta yields a rectangle with
`width ≥ 10` and `height ≥ 10`; in particular the `nw` handle on
`{x:10, y:10, width:20, height:20}` with a `(+50, +50)` percent drag
yields `y = 20` and `height = 10`. -/
theorem resize_preserves_min_size (c : Crop) (m : Mode) (dx dy : ℚ)
    (hv : ValidBounds c) (hm : MinSized c) (hmode : m ≠ Mode.move) :
    MinSized (handlePointerMove c m dx dy) ∧
      (handlePointerMove ⟨10, 10, 20, 20⟩ Mode.nw 50 50).y = 20 ∧
      (handlePointerMove ⟨10, 10, 20, 20⟩ Mode.nw 50 50).height = 10 := by
  obtain ⟨hx, hy, hxw, hyh⟩ := hv
  obtain ⟨hw, hh⟩ := hm
  have hex : handlePointerMove ⟨10, 10, 20, 20⟩ Mode.nw 50 50 = ⟨20, 20, 10, 10⟩ := by
    rw [hpm_nw]
    simp only [clamp, minSize]
    norm_num [min_def, max_def]
  refine ⟨?_, by rw [hex], by rw [hex]⟩
  cases m with
  | move => exact absurd rfl hmode
  | nw =>
    rw [hpm_nw]
    have h1 := clamp_le_hi (c.x + dx) 0 (c.x + c.width - minSize)
    have h2 := clamp_le_hi (c.y + dy) 0 (c.y + c.height - minSize)
    exact ⟨by simp only; linarith, by simp only; linarith⟩
  | ne =>
    rw [hpm_ne]
    have h2 := clamp_le_hi (c.y + dy) 0 (c.y + c.height - minSize)
    have h3 := lo_le_clamp (c.width + dx) minSize (100 - c.x) (by linarith)
    exact ⟨h3, by simp only; linarith⟩
  | sw =>
    rw [hpm_sw]
    have h1 := clamp_le_hi (c.x + dx) 0 (c.x + c.width - minSize)
    have h4 := lo_le_clamp (c.height + dy) minSize (100 - c.y) (by linarith)
    exact ⟨by simp only; linarith, h4⟩
  | se =>
    rw [hpm_se]
    have h3 := lo_le_clamp (c.width + dx) minSize (100 - c.x) (by linarith)
    have h4 := lo_le_clamp (c.height + dy) minSize (100 - c.y) (by linarith)
    exact ⟨h3, h4⟩

/-- C2 (witness): the spec's own scenario instantiates the theorem. -/
theorem resize_preserves_min_size_witness :
    MinSized (handlePointerMove ⟨10, 10, 20, 20⟩ Mode.nw 50 50) ∧
      (handlePointerMove ⟨10, 10, 20, 20⟩ Mode.nw 50 50).y = 20 ∧
      (handlePointerMove ⟨10, 10, 20, 20⟩ Mode.nw 50 50).height = 10 :=
  resize_preserves_min_size ⟨10, 10, 20, 20⟩ Mode.nw 50 50
    (by norm_num [ValidBounds]) (by norm_num [MinSized, minSize]) (by simp)

/-- C3 (counterexample): the output raster dimensions are not the
*rounded* products.  Cropping `{x:0, y:0, width:10, height:10}` on a
`15×15` source gives `pixelW = 10 × 15/100 = 1.5`; the canvas dimension
assignment truncates this to `1`, while the claim's formula
`round(width_pct × W/100)` gives `2`. -/
theorem crop_save_dims_cex :
    handleSaveDims 15 15 ⟨0, 0, 10, 10⟩ = (1, 1) ∧
      round ((10 : ℚ) * (15 / 100)) = 2 ∧ (1 : ℕ) ≠ 2 := by
  have h15 : (10 : ℚ) * (15 / 100) = 3 / 2 := by norm_num
  have hfl : ⌊(3 / 2 : ℚ)⌋ = 1 := by
    rw [Int.floor_eq_iff]
    norm_num
  refine ⟨?_, ?_, by norm_num⟩
  · simp only [handleSaveDims, canvasDim]
    norm_num [h15, hfl]
  · rw [h15, round_eq]
    norm_num

lemma canvasDim_eq_toNat_floor {q : ℚ} {n : ℕ} (hq : q ≤ (n : ℚ)) (hn : n < 2 ^ 32) :
    canvasDim q = Int.toNat ⌊q⌋ := by
  unfold canvasDim
  apply Nat.mod_eq_of_lt
  have h1 : ⌊q⌋ ≤ (n : ℤ) := by
    calc ⌊q⌋ ≤ ⌊(n : ℚ)⌋ := Int.floor_le_floor hq
    _ = n := Int.floor_natCast n
  exact lt_of_le_of_lt (Int.toNat_le.mpr h1) hn

/-- C3 (amended): for every valid crop rectangle and every source image
of natural size `W×H` (canvas dimensions are below `2^32`), the
crop-save operation produces an output raster of dimensions
`⌊width_pct × W/100⌋` by `⌊height_pct × H/100⌋` — the canvas dimension
assignment truncates, it does not round; in particular cropping
`{0,0,100,100}` on a `W×H` image yields a `W×H` output and cropping
`{25,25,50,50}` on a `400×400` source yields a `200×200` output. -/
theorem crop_save_dims (W H : ℕ) (c : Crop) (hW : W < 2 ^ 32) (hH : H < 2 ^ 32)
    (hv : ValidBounds c) :
    handleSaveDims W H c =
      (Int.toNat ⌊c.width * ((W : ℚ) / 100)⌋, Int.toNat ⌊c.height * ((H : ℚ) / 100)⌋) ∧
      handleSaveDims W H ⟨0, 0, 100, 100⟩ = (W, H) ∧
      handleSaveDims 400 400 ⟨25, 25, 50, 50⟩ = (200, 200) := by
  obtain ⟨hx, hy, hxw, hyh⟩ := hv
  have hfull : ∀ n : ℕ, n < 2 ^ 32 → canvasDim ((100 : ℚ) * ((n : ℚ) / 100)) = n := by
    intro n hn
    have h100 : (100 : ℚ) * ((n : ℚ) / 100) = (n : ℚ) := by field_simp
    rw [h100, canvasDim_eq_toNat_floor le_rfl hn, Int.floor_natCast, Int.toNat_natCast]
  refine ⟨?_, ?_, ?_⟩
  · have hwle : c.width * ((W : ℚ) / 100) ≤ (W : ℚ) := by
      have h1 : c.width * ((W : ℚ) / 100) ≤ 100 * ((W : ℚ) / 100) :=
        mul_le_mul_of_nonneg_right (by linarith) (by positivity)
      have h2 : (100 : ℚ) * ((W : ℚ) / 100) = (W : ℚ) := by field_simp
      linarith
    have hhle : c.height * ((H : ℚ) / 100) ≤ (H : ℚ) := by
      have h1 : c.height * ((H : ℚ) / 100) ≤ 100 * ((H : ℚ) / 100) :=
        mul_le_mul_of_nonneg_right (by linarith) (by positivity)
      have h2 : (100 : ℚ) * ((H : ℚ) / 100) = (H : ℚ) := by field_simp
      linarith
    simp only [handleSaveDims]
    rw [canvasDim_eq_toNat_floor hwle hW, canvasDim_eq_toNat_floor hhle hH]
  · simp only [handleSaveDims]
    rw [hfull W hW, hfull H hH]
  · have h50 : (50 : ℚ) * ((400 : ℕ) / 100 : ℚ) = 200 := by norm_num
    simp only [handleSaveDims]
    norm_num [canvasDim]
    decide

/-- C3 (witness): the amended statement at the spec's own example. -/
theorem crop_save_dims_witness :
    handleSaveDims 400 400 ⟨25, 25, 50, 50⟩ = (200, 200) :=
  (crop_save_dims 400 400 ⟨25, 25, 50, 50⟩ (by norm_num) (by norm_num)
    (by norm_num [ValidBounds])).2.2

/-- C4: a blob larger than 50 MiB is rejected with the size-limit error
and no network call is made (no auth lookup, no storage write, no
metadata insert, no callback); a blob of at most 50 MiB passes the size
check, so the upload proceeds to the auth lookup and never surfaces the
size-limit error. -/
theorem upload_size_limit (env : UploadEnv) (size : ℕ) :
    (sizeLimit < size →
      uploadMedia env size =
        { steps := [], error := some UploadError.sizeLimitExceeded,
          callbackCount := 0, insertedRecord := false }) ∧
    (size ≤ sizeLimit →
      UploadStep.authLookup ∈ (uploadMedia env size).steps ∧
      (uploadMedia env size).error ≠ some UploadError.sizeLimitExceeded) := by
  obtain ⟨m, u, so, io⟩ := env
  constructor
  · intro h
    simp [uploadMedia, h]
  · intro h
    have h2 : ¬ sizeLimit < size := not_lt.mpr h
    cases u <;> cases so <;> cases io <;> simp [uploadMedia, h2]

/-- C4 (witness): a blob of exactly `50*1024*1024 + 1` bytes is
rejected with no network call; a 1 KiB blob proceeds to the auth
lookup. -/
theorem upload_size_limit_witness :
    uploadMedia ⟨true, some "u", true, true⟩ (50 * 1024 * 1024 + 1) =
      { steps := [], error := some UploadError.sizeLimitExceeded,
        callbackCount := 0, insertedRecord := false } ∧
      UploadStep.authLookup ∈ (uploadMedia ⟨true, some "u", true, true⟩ 1024).steps :=
  ⟨(upload_size_limit _ _).1 (by norm_num [sizeLimit]),
   ((upload_size_limit _ _).2 (by norm_num [sizeLimit])).1⟩

/-- C6 (counterexample): the completion callback is *not* invoked
exactly once per successful upload: when the component has been
unmounted while the upload was in flight, a fully successful run
(`error = none`, metadata record created) invokes `onUpload` zero
times, because of the `isMounted.current` guard on line 426. -/
theorem upload_callback_cex :
    (uploadMedia ⟨false, some "u", true, true⟩ 1).error = none ∧
      (uploadMedia ⟨false, some "u", true, true⟩ 1).insertedRecord = true ∧
      (uploadMedia ⟨false, some "u", true, true⟩ 1).callbackCount = 0 := by
  refine ⟨?_, ?_, ?_⟩ <;> rfl

/-- C6 (amended): a failure of any step aborts the remaining steps — in
particular, if the storage write fails no metadata insert is attempted
and no record is created — and the `onUpload` callback is invoked
exactly once per successful upload *provided the component is still
mounted when the upload completes*, and never on failure. -/
theorem upload_atomicity (env : UploadEnv) (size : ℕ) :
    (env.storageOk = false →
      UploadStep.metadataInsert ∉ (uploadMedia env size).steps ∧
      (uploadMedia env size).insertedRecord = false) ∧
    ((uploadMedia env size).error = none → env.mounted = true →
      (uploadMedia env size).callbackCount = 1) ∧
    ((uploadMedia env size).error ≠ none →
      (uploadMedia env size).callbackCount = 0) := by
  obtain ⟨m, u, so, io⟩ := env
  by_cases hs : sizeLimit < size <;>
    cases u <;> cases so <;> cases io <;> cases m <;>
    simp [uploadMedia, hs]

/-- C6 (witness): a failed storage write attempts no metadata insert;
a mounted successful run fires the callback exactly once. -/
theorem upload_atomicity_witness :
    (UploadStep.metadataInsert ∉ (uploadMedia ⟨true, some "u", false, true⟩ 1).steps ∧
      (uploadMedia ⟨true, some "u", false, true⟩ 1).insertedRecord = false) ∧
      (uploadMedia ⟨true, some "u", true, true⟩ 1).callbackCount = 1 :=
  ⟨(upload_atomicity ⟨true, some "u", false, true⟩ 1).1 rfl,
   (upload_atomicity ⟨true, some "u", true, true⟩ 1).2.1 rfl rfl⟩

/-- C9 (counterexample): `clamp` does not return `lo` whenever `v < lo`
for *all* reals: with an inverted interval, `clamp 0 5 3 = min (max 0 5) 3
= 3 ≠ 5` although `0 < 5`. -/
theorem clamp_spec_cex :
    clamp (0 : ℝ) 5 3 = 3 ∧ (0 : ℝ) < 5 ∧ (3 : ℝ) ≠ 5 := by
  refine ⟨?_, by norm_num, by norm_num⟩
  unfold clamp
  rw [max_eq_right (by norm_num : (0 : ℝ) ≤ 5)]
  exact min_eq_right (by norm_num)

/-- C9 (amended): for all real `v`, `lo`, `hi` with `lo ≤ hi`,
`clamp v lo hi` returns `lo` when `v < lo`, `hi` when `v > hi`, and `v`
otherwise. -/
theorem clamp_spec (v lo hi : ℝ) (h : lo ≤ hi) :
    (v < lo → clamp v lo hi = lo) ∧
      (hi < v → clamp v lo hi = hi) ∧
      (lo ≤ v → v ≤ hi → clamp v lo hi = v) := by
  unfold clamp
  refine ⟨fun hv => ?_, fun hv => ?_, fun h1 h2 => ?_⟩
  · rw [max_eq_right hv.le, min_eq_left h]
  · exact min_eq_right (le_trans hv.le (le_max_left _ _))
  · rw [max_eq_left h1, min_eq_left h2]

/-- C9 (witness): the three cases at concrete reals. -/
theorem clamp_spec_witness :
    clamp (-2 : ℝ) 0 5 = 0 ∧ clamp (7 : ℝ) 0 5 = 5 ∧ clamp (3 : ℝ) 0 5 = 3 :=
  ⟨(clamp_spec (-2) 0 5 (by norm_num)).1 (by norm_num),
   (clamp_spec 7 0 5 (by norm_num)).2.1 (by norm_num),
   (clamp_spec 3 0 5 (by norm_num)).2.2 (by norm_num) (by norm_num)⟩

lemma sanitizeChars_allowed (l : List Char) :
    ∀ ch ∈ sanitizeChars l, isAllowedChar ch = true := by
  intro ch hch
  rw [sanitizeChars, List.mem_map] at hch
  obtain ⟨a, _, rfl⟩ := hch
  by_cases h : isAllowedChar a = true
  · simp [h]
  · rw [if_neg h]
    decide

lemma storedAndDisplay_snd (uniqueId fileName : String) :
    (storedAndDisplay uniqueId fileName).2 = fileName := by
  unfold storedAndDisplay
  rcases h : splitAtLastDot fileName.data with _ | ⟨b, e⟩ <;> simp [h]

/-- C5 (counterexample): the sanitizer does not replace every
non-alphanumeric character of the base name — its character class
`[a-zA-Z0-9-_]` also admits hyphens (and underscores).  The stored
object name derived for the user-picked file `"a-b.pdf"` still contains
the non-alphanumeric character `'-'`. -/
theorem upload_naming_cex :
    (storedAndDisplay "x" "a-b.pdf").1 = "x_a-b.pdf" ∧
      '-' ∈ "x_a-b.pdf".data ∧ Char.isAlphanum '-' = false := by
  exact ⟨rfl, by decide, by decide⟩

/-- C5 (amended): for every user-picked file, the stored object name is
`{random_id}_{sanitized_basename}.{ext}` where sanitization replaces
every character outside ASCII letters, digits, hyphen and underscore
(so every character of the sanitized base is in that class), the
extension is kept, and the display name is the original file name —
`"My Notes.pdf"` yields stored name `{id}_My_Notes.pdf` and display
name `"My Notes.pdf"` exactly; for every captured blob the stored name
is `{random_id}_{type}_{timestamp}.{ext}` with `ext = jpg` for images
and `webm` otherwise. -/
theorem upload_naming (uniqueId fileName : String) (t : MediaType) (timestamp : ℕ) :
    (storedAndDisplay uniqueId fileName).2 = fileName ∧
      (storedAndDisplay "id9" "My Notes.pdf").1 = "id9_My_Notes.pdf" ∧
      (storedAndDisplay "id9" "My Notes.pdf").2 = "My Notes.pdf" ∧
      (∀ ch ∈ sanitizeChars fileName.data, isAllowedChar ch = true) ∧
      capturedStoredName uniqueId t timestamp =
        uniqueId ++ "_" ++ mediaTypeName t ++ "_" ++ toString timestamp ++ "."
          ++ capturedExt t ∧
      capturedExt MediaType.image = "jpg" ∧
      capturedExt MediaType.video = "webm" ∧
      capturedExt MediaType.audio = "webm" ∧
      capturedExt MediaType.document = "webm" :=
  ⟨storedAndDisplay_snd uniqueId fileName, rfl, rfl,
   sanitizeChars_allowed fileName.data, rfl, rfl, rfl, rfl, rfl⟩

/-- C5 (witness): the sanitized-character conjunct at a concrete
character of the spec's example file name. -/
theorem upload_naming_witness :
    isAllowedChar 'M' = true ∧ (storedAndDisplay "w1" "My Notes.pdf").2 = "My Notes.pdf" :=
  ⟨(upload_naming "w1" "My Notes.pdf" MediaType.image 0).2.2.2.1 'M' (by decide),
   (upload_naming "w1" "My Notes.pdf" MediaType.image 0).1⟩

lemma splitAtLastDot_eq_none (cs : List Char) :
    splitAtLastDot cs = none ↔ '.' ∉ cs := by
  induction cs with
  | nil => simp [splitAtLastDot]
  | cons c cs ih =>
    rw [splitAtLastDot]
    cases h : splitAtLastDot cs with
    | some p =>
      have hmem : '.' ∈ cs := by
        by_contra hno
        rw [← ih] at hno
        rw [h] at hno
        exact (Option.some_ne_none p) hno
      simp [hmem]
    | none =>
      have hno : '.' ∉ cs := ih.mp h
      by_cases hc : c = '.'
      · subst hc
        simp
      · simp [hc, Ne.symm hc, hno]

/-- C10: for every user-picked file whose name contains no dot, the
stored object name is `{random_id}_{sanitized_name}.` — ending in a
trailing dot with an empty extension — while the display name remains
the original file name unchanged. -/
theorem upload_no_dot (uniqueId fileName : String) (h : '.' ∉ fileName.data) :
    storedAndDisplay uniqueId fileName =
      (uniqueId ++ "_" ++ sanitize fileName ++ ".", fileName) := by
  have hn : splitAtLastDot fileName.data = none := (splitAtLastDot_eq_none _).mpr h
  unfold storedAndDisplay
  rw [hn]
  show (uniqueId ++ "_" ++ sanitize fileName ++ "." ++ "", fileName) = _
  rw [String.append_empty]

/-- C10 (witness): the file name `"README"` has no dot; its stored name
is `{id}_README.` and its display name `"README"`. -/
theorem upload_no_dot_witness :
    storedAndDisplay "x7" "README" = ("x7_README.", "README") := by
  rw [upload_no_dot "x7" "README" (by decide)]
  rfl

/-- C7: for the audio category, the recorder adapter selects the first
supported encoding in the order webm, mp4, ogg, aac; when none of the
four is supported, `getSupportedMimeType` yields the empty string and
`setupRecorder` reports the error and creates no recorder. -/
theorem audio_mime_preference (sup : String → Bool) :
    ((∀ t ∈ audioTypes, sup t = false) →
      setupRecorder sup RecCategory.audio = ⟨none, true⟩) ∧
      (sup "audio/webm" = true →
        (setupRecorder sup RecCategory.audio).recorder = some "audio/webm") ∧
      (sup "audio/webm" = false → sup "audio/mp4" = true →
        (setupRecorder sup RecCategory.audio).recorder = some "audio/mp4") ∧
      (sup "audio/webm" = false → sup "audio/mp4" = false → sup "audio/ogg" = true →
        (setupRecorder sup RecCategory.audio).recorder = some "audio/ogg") ∧
      (sup "audio/webm" = false → sup "audio/mp4" = false → sup "audio/ogg" = false →
        sup "audio/aac" = true →
        (setupRecorder sup RecCategory.audio).recorder = some "audio/aac") := by
  refine ⟨fun h => ?_, fun h1 => ?_, fun h1 h2 => ?_, fun h1 h2 h3 => ?_,
    fun h1 h2 h3 h4 => ?_⟩
  · have h1 := h "audio/webm" (by simp [audioTypes])
    have h2 := h "audio/mp4" (by simp [audioTypes])
    have h3 := h "audio/ogg" (by simp [audioTypes])
    have h4 := h "audio/aac" (by simp [audioTypes])
    simp [setupRecorder, getSupportedMimeType, audioTypes, h1, h2, h3, h4]
  · simp [setupRecorder, getSupportedMimeType, audioTypes, h1]
  · simp [setupRecorder, getSupportedMimeType, audioTypes, h1, h2]
  · simp [setupRecorder, getSupportedMimeType, audioTypes, h1, h2, h3]
  · simp [setupRecorder, getSupportedMimeType, audioTypes, h1, h2, h3, h4]

/-- C7 (witness): with a platform supporting only ogg, the adapter
selects `audio/ogg`; with no supported format, setup aborts with the
error and no recorder. -/
theorem audio_mime_preference_witness :
    (setupRecorder (fun s => s == "audio/ogg") RecCategory.audio).recorder
        = some "audio/ogg" ∧
      setupRecorder (fun _ => false) RecCategory.audio = ⟨none, true⟩ :=
  ⟨(audio_mime_preference _).2.2.2.1 (by decide) (by decide) (by decide),
   (audio_mime_preference _).1 (fun t _ => rfl)⟩

/-- C8 (counterexample): after a start operation completes it is not
always the case that exactly one stream is active: from a state holding
one active stream, a start whose `getUserMedia` call is rejected (the
`catch` branch) ends with zero active streams — the previous stream was
already released and no new one was acquired. -/
theorem single_stream_cex :
    activeStreams ⟨some 0, [0], []⟩ = [0] ∧
      activeStreams (startStream ⟨some 0, [0], []⟩ AcquireOutcome.failure true) = [] := by
  constructor <;> rfl

/-- C8 (amended): at most one active media stream is held at any time.
Starting a new capture session first stops all tracks of any previously
held stream; when acquisition succeeds and the component is still
mounted, exactly one stream (the fresh one) is active afterwards; when
acquisition fails or the component was unmounted meanwhile, none is; in
every case the exactly-the-held-stream invariant is preserved and at
most one stream is active. -/
theorem start_stream_single_active (s : CaptureState) (o : AcquireOutcome)
    (mounted : Bool)
    (hinv : activeStreams s = s.held.toList)
    (hfresh : ∀ i, o = AcquireOutcome.success i → i ∉ s.acquired ∧ i ∉ s.stopped) :
    (∀ j, s.held = some j → j ∈ (startStream s o mounted).stopped) ∧
      activeStreams (startStream s o mounted) = (startStream s o mounted).held.toList ∧
      (∀ i, o = AcquireOutcome.success i → mounted = true →
        activeStreams (startStream s o mounted) = [i]) ∧
      (o = AcquireOutcome.failure ∨ mounted = false →
        activeStreams (startStream s o mounted) = []) ∧
      (activeStreams (startStream s o mounted)).length ≤ 1 := by
  obtain ⟨held, acq, stp⟩ := s
  cases held with
  | none =>
    have hnil : List.filter (fun a => decide (a ∉ stp)) acq = [] := hinv
    cases o with
    | failure =>
      have hres : activeStreams
          (startStream ⟨none, acq, stp⟩ AcquireOutcome.failure mounted) = [] := hnil
      exact ⟨by simp, by rw [hres]; rfl, by simp, fun _ => hres, by rw [hres]; simp⟩
    | success i =>
      obtain ⟨hia, his⟩ := hfresh i rfl
      cases mounted with
      | true =>
        have hres : activeStreams
            (startStream ⟨none, acq, stp⟩ (AcquireOutcome.success i) true) = [i] := by
          show List.filter (fun a => decide (a ∉ stp)) (i :: acq) = [i]
          rw [List.filter_cons_of_pos (by simp [his]), hnil]
        refine ⟨by simp, by rw [hres]; rfl, ?_, ?_, by rw [hres]; simp⟩
        · intro i' hi' _
          injection hi' with h
          subst h
          exact hres
        · rintro (h | h) <;> exact absurd h (by simp)
      | false =>
        have hres : activeStreams
            (startStream ⟨none, acq, stp⟩ (AcquireOutcome.success i) false) = [] := by
          show List.filter (fun a => decide (a ∉ i :: stp)) (i :: acq) = []
          rw [List.filter_cons_of_neg (by simp), List.filter_eq_nil_iff]
          intro a ha hdec
          rw [decide_eq_true_eq] at hdec
          have h1 : a ∉ stp := fun h => hdec (List.mem_cons_of_mem _ h)
          have h2 : a ∈ List.filter (fun a => decide (a ∉ stp)) acq :=
            List.mem_filter.mpr ⟨ha, by simp [h1]⟩
          rw [hnil] at h2
          exact absurd h2 (List.not_mem_nil a)
        refine ⟨by simp, by rw [hres]; rfl, ?_, fun _ => hres, by rw [hres]; simp⟩
        intro i' _ hm
        exact absurd hm (by simp)
  | some j =>
    have hj : j ∈ acq ∧ j ∉ stp := by
      have hmem : j ∈ List.filter (fun a => decide (a ∉ stp)) acq := by
        have h0 : List.filter (fun a => decide (a ∉ stp)) acq = [j] := hinv
        rw [h0]
        exact List.mem_cons_self j []
      have := List.mem_filter.mp hmem
      simpa using this
    have hnil1 : List.filter (fun a => decide (a ∉ j :: stp)) acq = [] := by
      rw [List.filter_eq_nil_iff]
      intro a ha hdec
      rw [decide_eq_true_eq] at hdec
      have h1 : a ∉ stp := fun h => hdec (List.mem_cons_of_mem _ h)
      have h2 : a ∈ List.filter (fun a => decide (a ∉ stp)) acq :=
        List.mem_filter.mpr ⟨ha, by simp [h1]⟩
      have h0 : List.filter (fun a => decide (a ∉ stp)) acq = [j] := hinv
      rw [h0] at h2
      simp at h2
      exact hdec (h2 ▸ List.mem_cons_self a stp)
    cases o with
    | failure =>
      have hres : activeStreams
          (startStream ⟨some j, acq, stp⟩ AcquireOutcome.failure mounted) = [] := hnil1
      refine ⟨?_, by rw [hres]; rfl, by simp, fun _ => hres, by rw [hres]; simp⟩
      intro j' hj'
      injection hj' with h
      subst h
      exact List.mem_cons_self _ _
    | success i =>
      obtain ⟨hia, his⟩ := hfresh i rfl
      have hij : i ≠ j := fun h => hia (h ▸ hj.1)
      have hijs : (i ∈ j :: stp) = False := by
        simp only [List.mem_cons, eq_iff_iff, iff_false]
        rintro (h | h)
        · exact hij h
        · exact his h
      cases mounted with
      | true =>
        have hres : activeStreams
            (startStream ⟨some j, acq, stp⟩ (AcquireOutcome.success i) true) = [i] := by
          show List.filter (fun a => decide (a ∉ j :: stp)) (i :: acq) = [i]
          rw [List.filter_cons_of_pos (by simp [hijs]), hnil1]
        refine ⟨?_, by rw [hres]; rfl, ?_, ?_, by rw [hres]; simp⟩
        · intro j' hj'
          injection hj' with h
          subst h
          exact List.mem_cons_self _ _
        · intro i' hi' _
          injection hi' with h
          subst h
          exact hres
        · rintro (h | h) <;> exact absurd h (by simp)
      | false =>
        have hres : activeStreams
            (startStream ⟨some j, acq, stp⟩ (AcquireOutcome.success i) false) = [] := by
          show List.filter (fun a => decide (a ∉ i :: j :: stp)) (i :: acq) = []
          rw [List.filter_cons_of_neg (by simp), List.filter_eq_nil_iff]
          intro a ha hdec
          rw [decide_eq_true_eq] at hdec
          have h1 : a ∉ j :: stp := fun h => hdec (List.mem_cons_of_mem _ h)
          have h2 : a ∈ List.filter (fun a => decide (a ∉ j :: stp)) acq :=
            List.mem_filter.mpr ⟨ha, by simp [h1]⟩
          rw [hnil1] at h2
          exact absurd h2 (List.not_mem_nil a)
        refine ⟨?_, by rw [hres]; rfl, ?_, fun _ => hres, by rw [hres]; simp⟩
        · intro j' hj'
          injection hj' with h
          subst h
          exact List.mem_cons_of_mem _ (List.mem_cons_self _ _)
        · intro i' _ hm
          exact absurd hm (by simp)

/-- C8 (witness): starting a fresh session over a held stream `0`
stops stream `0`'s tracks and leaves exactly the fresh stream `1`
active. -/
theorem start_stream_single_active_witness :
    activeStreams (startStream ⟨some 0, [0], []⟩ (AcquireOutcome.success 1) true) = [1] :=
  (start_stream_single_active ⟨some 0, [0], []⟩ (AcquireOutcome.success 1) true
    (by rfl)
    (fun i hi => by cases hi; exact ⟨by decide, by decide⟩)).2.2.1 1 rfl rfl

end StudyPro
